import Mathlib

/-!
Verification of the dbj-autostart orchestrator (`src/dbj_main.py`).

The development shallowly embeds the Python source:

* Python's `re` module is modelled by the inductive `Regex` together with
  `re_compile` (the fragment of `re.compile` syntax exercised by the
  program: literal characters, `.`, alternation `|`, groups `(...)` and
  single greedy quantifiers `*`, `+`, `?`; anything outside the fragment
  is reported as a compile failure) and `rsearchL` (the semantics of
  `re.search`: the pattern may match anywhere inside the subject, it need
  not cover the whole string, and `.` matches any character except a
  newline).
* `wait_for_window` is embedded with a virtual clock: `time.time() - t0`
  is the total time slept so far, i.e. after `k` sleeps the elapsed time
  is `k * poll_ms` milliseconds, and the loop guard
  `time.time() - t0 < timeout_s` becomes `k * poll_ms < timeout_s * 1000`.
  The snapshot source `hypr_clients` is a parameter giving the snapshot
  returned by the `k`-th fetch.  The recursion carries fuel; the wrapper
  supplies fuel that suffices whenever `poll_interval_ms ≥ 1`, and fuel
  exhaustion is reported by the distinguished outcome `diverge`
  (corresponding to the Python loop never returning).
* `orchestrate`, `prewarm_workspaces` and the dispatch helpers are
  embedded as trace builders: every external effect of the Python code
  (a `subprocess.run` of an `hyprctl` command, a `subprocess.Popen`
  launch, a snapshot fetch, a `time.sleep`, a stdout line, a stderr
  warning) becomes an `Event` in an ordered trace.
* `load_config` is embedded over a model of the already-parsed TOML
  data; a missing required key in an app table is a `KeyError`.
-/

/-! ### A model of the used fragment of Python regular expressions -/

/-- Abstract syntax of the regular-expression fragment: `fail` matches
nothing, `eps` matches the empty string, `char c` one literal character,
`dot` any character except `'\n'` (Python `.` without `DOTALL`),
plus concatenation, alternation and Kleene star. -/
inductive Regex where
  | fail : Regex
  | eps : Regex
  | char : Char → Regex
  | dot : Regex
  | concat : Regex → Regex → Regex
  | alt : Regex → Regex → Regex
  | star : Regex → Regex
  deriving DecidableEq, Repr

/-- Does the expression accept the empty string? -/
def nullable : Regex → Bool
  | .fail => false
  | .eps => true
  | .char _ => false
  | .dot => false
  | .concat r s => nullable r && nullable s
  | .alt r s => nullable r || nullable s
  | .star _ => true

/-- Brzozowski derivative of the expression with respect to one character. -/
def rderiv (a : Char) : Regex → Regex
  | .fail => .fail
  | .eps => .fail
  | .char c => if a = c then .eps else .fail
  | .dot => if a = '\n' then .fail else .eps
  | .concat r s =>
      if nullable r then .alt (.concat (rderiv a r) s) (rderiv a s)
      else .concat (rderiv a r) s
  | .alt r s => .alt (rderiv a r) (rderiv a s)
  | .star r => .concat (rderiv a r) (.star r)

/-- Does some (possibly empty) leading segment of the character list match
the expression?  This is `re.match` as a Bool. -/
def matchPref (r : Regex) : List Char → Bool
  | [] => nullable r
  | c :: cs => nullable r || matchPref (rderiv c r) cs

/-- `re.search` semantics: the expression matches some segment of the
subject starting at some position (substring search, not full match). -/
def rsearchL (r : Regex) : List Char → Bool
  | [] => nullable r
  | c :: cs => matchPref r (c :: cs) || rsearchL r cs

/-- Characters that may be written after a backslash in the fragment
(escaping turns them into literals, exactly as in Python `re`). -/
def escapable (c : Char) : Bool :=
  c == '(' || c == ')' || c == '*' || c == '+' || c == '?' || c == '|' ||
  c == '.' || c == '\\' || c == '[' || c == ']' || c == '{' || c == '}' ||
  c == '^' || c == '$'

/-- Characters that cannot begin an atom: `)` `*` `+` `?` are `re.error`s
there ("unbalanced parenthesis" / "nothing to repeat"); `[` `{` `^` `$`
begin constructs outside the modelled fragment and are reported as
compile failures as well. -/
def atomForbidden (c : Char) : Bool :=
  c == ')' || c == '*' || c == '+' || c == '?' || c == '|' ||
  c == '[' || c == '{' || c == '^' || c == '$'

/-- Is the character a quantifier? -/
def isQuantChar (c : Char) : Bool :=
  c == '*' || c == '+' || c == '?'

/-- Build the expression for `r*`, `r+` or `r?`. -/
def applyQuant (c : Char) (r : Regex) : Regex :=
  if c == '*' then .star r
  else if c == '+' then .concat r (.star r)
  else .alt r .eps

mutual

/-- Parse an alternation (`concat ('|' concat)*`). -/
def parseAlt : Nat → List Char → Option (Regex × List Char)
  | 0, _ => none
  | fuel + 1, cs =>
    match parseConcat fuel cs with
    | none => none
    | some (r, rest) =>
      match rest with
      | '|' :: rest2 =>
        match parseAlt fuel rest2 with
        | none => none
        | some (s, rest3) => some (.alt r s, rest3)
      | _ => some (r, rest)

/-- Parse a concatenation of quantified atoms, stopping at `|`, `)` or
the end of the pattern. -/
def parseConcat : Nat → List Char → Option (Regex × List Char)
  | 0, _ => none
  | fuel + 1, cs =>
    match cs with
    | [] => some (.eps, [])
    | ')' :: _ => some (.eps, cs)
    | '|' :: _ => some (.eps, cs)
    | _ =>
      match parseRep fuel cs with
      | none => none
      | some (r, rest) =>
        match rest with
        | [] => some (r, [])
        | ')' :: _ => some (r, rest)
        | '|' :: _ => some (r, rest)
        | _ =>
          match parseConcat fuel rest with
          | none => none
          | some (s, rest2) => some (.concat r s, rest2)

/-- Parse one atom followed by at most one quantifier; a quantifier
directly following a quantifier is Python's "multiple repeat" error
(lazy and possessive quantifiers are outside the fragment). -/
def parseRep : Nat → List Char → Option (Regex × List Char)
  | 0, _ => none
  | fuel + 1, cs =>
    match parseAtom fuel cs with
    | none => none
    | some (r, rest) =>
      match rest with
      | [] => some (r, [])
      | c :: rest2 =>
        if isQuantChar c then
          match rest2 with
          | [] => some (applyQuant c r, [])
          | c2 :: _ =>
            if isQuantChar c2 then none else some (applyQuant c r, rest2)
        else some (r, rest)

/-- Parse one atom: a group, `.`, an escaped literal or a literal
character.  An unterminated group or a bad escape is a compile error. -/
def parseAtom : Nat → List Char → Option (Regex × List Char)
  | 0, _ => none
  | fuel + 1, cs =>
    match cs with
    | [] => none
    | '(' :: rest =>
      match parseAlt fuel rest with
      | none => none
      | some (r, rest2) =>
        match rest2 with
        | ')' :: rest3 => some (r, rest3)
        | _ => none
    | '.' :: rest => some (.dot, rest)
    | '\\' :: c :: rest => if escapable c then some (.char c, rest) else none
    | ['\\'] => none
    | c :: rest => if atomForbidden c then none else some (.char c, rest)

end

/-- Model of `re.compile`: parse the whole pattern; leftover input (a
stray `)`) or any parse failure is an `re.error`. -/
def re_compile (p : String) : Option Regex :=
  match parseAlt (2 * p.length + 8) p.data with
  | some (r, []) => some r
  | _ => none

/-! ### Windows and the snapshot scan of `wait_for_window` -/

/-- One record of the `hyprctl -j clients` snapshot, restricted to the
two fields the program reads.  `none` models a missing (or JSON-null)
field. -/
structure Window where
  address : Option String
  cls : Option String
  deriving DecidableEq, Repr

/-- `c.get("class", "") or ""`: a missing, null or empty class is the
empty string. -/
def classString (c : Window) : String :=
  c.cls.getD ""

/-- The inner `for c in hypr_clients(): if pat.search(...): return
c.get("address")` loop over one snapshot: the first window whose class
matches the pattern yields its (possibly missing) `address` field. -/
def scanClients (pat : Regex) : List Window → Option (Option String)
  | [] => none
  | c :: rest =>
    if rsearchL pat (classString c).data then some c.address
    else scanClients pat rest

/-! ### Effects and the polling waiter -/

/-- One external effect of the program, in order of occurrence:
`runCmd s` is `run(s)` (a `subprocess.run` of an `hyprctl` command line),
`queryClients` the snapshot fetch performed by `hypr_clients()`,
`spawnP s` the `subprocess.Popen(s, shell=True)` launch,
`sleepMs n` the `time.sleep(n / 1000.0)` between polls,
`logLine s` a stdout `print`, and `warn s` a stderr `print`. -/
inductive Event where
  | runCmd : String → Event
  | queryClients : Event
  | spawnP : String → Event
  | sleepMs : Int → Event
  | logLine : String → Event
  | warn : String → Event
  deriving DecidableEq, Repr

/-- How one call of `wait_for_window` ends: `invalidPattern` is the
`re.error` raised by `re.compile`; `result a` is the returned
`Optional[str]` (`none` both for the timeout `return None` and for a
matched window whose `address` field is missing); `diverge` marks fuel
exhaustion, i.e. a loop that never returns. -/
inductive WaitOutcome where
  | invalidPattern : WaitOutcome
  | result : Option String → WaitOutcome
  | diverge : WaitOutcome
  deriving DecidableEq, Repr

/-- The outcome of a wait together with the fetch/sleep events it
performed, in order. -/
structure WaitTrace where
  outcome : WaitOutcome
  events : List Event
  deriving DecidableEq, Repr

/-- The `while time.time() - t0 < timeout_s` loop of `wait_for_window`,
on a virtual clock: at iteration `k` the elapsed time is `k * pms`
milliseconds (`pms` = `poll_ms`) and `T` is `timeout_s * 1000`.  Each
iteration fetches snapshot `polls k`, scans it, and either returns the
first matching window's address field or sleeps and retries. -/
def waitAux (pat : Regex) (polls : Nat → List Window) (T pms : Int) :
    Nat → Nat → WaitTrace
  | 0, _ => ⟨.diverge, []⟩
  | fuel + 1, k =>
    if (k : Int) * pms < T then
      match scanClients pat (polls k) with
      | some a => ⟨.result a, [.queryClients]⟩
      | none =>
        let rest := waitAux pat polls T pms fuel (k + 1)
        ⟨rest.outcome, .queryClients :: .sleepMs pms :: rest.events⟩
    else ⟨.result none, []⟩

/-- The loop of `wait_for_window` after the pattern compiled, started at
iteration 0 with fuel that suffices whenever `poll_ms ≥ 1`. -/
def waitCompiled (pat : Regex) (polls : Nat → List Window)
    (timeout_s pms : Int) : WaitTrace :=
  waitAux pat polls (timeout_s * 1000) pms ((timeout_s * 1000).toNat + 1) 0

/-- `wait_for_window(class_regex, timeout_s, poll_ms)`: compile the
pattern once (an `re.error` propagates before any fetch), then poll. -/
def wait_for_window (class_regex : String) (polls : Nat → List Window)
    (timeout_s pms : Int) : WaitTrace :=
  match re_compile class_regex with
  | none => ⟨.invalidPattern, []⟩
  | some pat => waitCompiled pat polls timeout_s pms

/-! ### Configuration records and the orchestrator -/

/-- `AppRule` of the source (`dataclass`): one declared application. -/
structure AppRule where
  name : String
  cmd : String
  class_regex : String
  workspace : Int
  monitor : Option String
  timeout_s : Option Int
  deriving DecidableEq, Repr

/-- `GeneralCfg` of the source: process-wide defaults. -/
structure GeneralCfg where
  prewarm_workspaces : List Int
  poll_interval_ms : Int
  default_timeout_s : Int
  deriving DecidableEq, Repr

/-- `Config` of the source. -/
structure Config where
  general : GeneralCfg
  apps : List AppRule
  deriving DecidableEq, Repr

/-- Truthiness of a Python `Optional[str]`: `None` and `""` are falsy. -/
def truthy : Option String → Bool
  | none => false
  | some s => decide (s ≠ "")

/-- Python `rule.timeout_s or cfg.general.default_timeout_s`: the `or`
falls back on the default both when `timeout_s` is `None` and when it is
the falsy integer `0`. -/
def effective_timeout (rule : AppRule) (gen : GeneralCfg) : Int :=
  match rule.timeout_s with
  | none => gen.default_timeout_s
  | some t => if t = 0 then gen.default_timeout_s else t

/-- `dispatch(cmd)` = `run(f"hyprctl dispatch {cmd}")`. -/
def dispatchCmd (cmd : String) : String :=
  "hyprctl dispatch " ++ cmd

/-- The two commands of `move_to_monitor`: focus, then move. -/
def move_to_monitor_cmds (addr monitor : String) : List Event :=
  [.runCmd (dispatchCmd ("focuswindow address:" ++ addr)),
   .runCmd (dispatchCmd ("movetomonitor " ++ monitor ++ " address:" ++ addr))]

/-- The command of `move_to_workspace`. -/
def move_to_workspace_cmd (addr : String) (ws : Int) : Event :=
  .runCmd (dispatchCmd ("movetoworkspace " ++ toString ws ++ " address:" ++ addr))

/-- The placement commands issued for a found window: move to the rule's
workspace, then, if the rule's monitor is truthy, focus and move to the
monitor. -/
def placementEvents (addr : String) (rule : AppRule) : List Event :=
  move_to_workspace_cmd addr rule.workspace ::
    (if truthy rule.monitor then move_to_monitor_cmds addr (rule.monitor.getD "") else [])

/-- The per-rule stdout line
`f"[dbj] launching: {rule.name} -> ws{rule.workspace}" + (f" @ {rule.monitor}" if rule.monitor else "")`. -/
def launchLine (rule : AppRule) : String :=
  "[dbj] launching: " ++ rule.name ++ " -> ws" ++ toString rule.workspace ++
    (if truthy rule.monitor then " @ " ++ rule.monitor.getD "" else "")

/-- The stdout line printed when a window was found. -/
def foundLine (addr : String) (rule : AppRule) : String :=
  "[dbj] found window " ++ addr ++ " for " ++ rule.name ++ ", moving to ws" ++
    toString rule.workspace

/-- The stderr warning printed on a per-rule timeout, naming the rule and
its pattern. -/
def warnLine (rule : AppRule) : String :=
  "[dbj][WARN] timeout esperando ventana de \x27" ++ rule.name ++
    "\x27 (regex=" ++ rule.class_regex ++ ")"

/-- Events a rule emits before its wait: the launching log line and, when
not in dry-run mode, the process launch. -/
def launchEvents (dry_run : Bool) (rule : AppRule) : List Event :=
  if dry_run then [.logLine (launchLine rule)]
  else [.logLine (launchLine rule), .spawnP rule.cmd]

/-- Events a rule emits after its wait resolved: on a falsy address the
timeout warning; on a truthy address the found log line and, when not in
dry-run mode, the placement commands.  An exception outcome emits
nothing further. -/
def resolutionEvents (dry_run : Bool) (rule : AppRule) : WaitOutcome → List Event
  | .invalidPattern => []
  | .diverge => []
  | .result a =>
    if truthy a then
      .logLine (foundLine (a.getD "") rule) ::
        (if dry_run then [] else placementEvents (a.getD "") rule)
    else [.warn (warnLine rule)]

/-- The error with which a rule's processing aborts the whole run, if
any: a pattern that fails to compile propagates `re.error`; a diverging
wait never reaches the rest of the run. -/
def ruleError : WaitOutcome → Option WaitOutcome
  | .invalidPattern => some .invalidPattern
  | .diverge => some .diverge
  | .result _ => none

/-- One iteration of the `for rule in cfg.apps` loop of `orchestrate`:
log, maybe launch, wait with the effective timeout, then warn or place.
Returns the rule's event trace and the propagated error, if any. -/
def processRule (gen : GeneralCfg) (dry_run : Bool)
    (polls : Nat → List Window) (rule : AppRule) : List Event × Option WaitOutcome :=
  let wt := wait_for_window rule.class_regex polls
              (effective_timeout rule gen) gen.poll_interval_ms
  (launchEvents dry_run rule ++ wt.events ++ resolutionEvents dry_run rule wt.outcome,
   ruleError wt.outcome)

/-- The single batched prewarm command string of `prewarm_workspaces`. -/
def prewarmBatchCmd (ws_list : List Int) : String :=
  "hyprctl --batch \x27" ++
    String.intercalate "; " (ws_list.map (fun ws => "dispatch workspace " ++ toString ws)) ++
    "\x27"

/-- `prewarm_workspaces(ws_list)`: nothing when the list is empty, else
exactly one batched command. -/
def prewarmEvents (ws_list : List Int) : List Event :=
  if ws_list = [] then [] else [.runCmd (prewarmBatchCmd ws_list)]

/-- The `for rule in cfg.apps` loop: rules in declaration order; an
exception from a rule stops the loop (and the run) at that rule.  The
snapshot environment `env i k` is the snapshot returned by the `k`-th
fetch performed while processing the `i`-th rule. -/
def orchRules (gen : GeneralCfg) (dry_run : Bool)
    (env : Nat → Nat → List Window) (i : Nat) :
    List AppRule → List Event × Except WaitOutcome Int
  | [] => ([], .ok 0)
  | rule :: rest =>
    match processRule gen dry_run (env i) rule with
    | (evts, some e) => (evts, .error e)
    | (evts, none) =>
      let r := orchRules gen dry_run env (i + 1) rest
      (evts ++ r.1, r.2)

/-- `orchestrate(cfg, dry_run)`: prewarm first (regardless of dry-run),
then process the rules; returns the full event trace and `0` unless an
exception escaped a rule. -/
def orchestrate (cfg : Config) (dry_run : Bool)
    (env : Nat → Nat → List Window) : List Event × Except WaitOutcome Int :=
  let r := orchRules cfg.general dry_run env 0 cfg.apps
  (prewarmEvents cfg.general.prewarm_workspaces ++ r.1, r.2)

/-! ### The configuration loader over parsed TOML data -/

/-- One `[[app]]` table as returned by `tomllib.load`; `none` models a
missing key. -/
structure TomlApp where
  name : Option String
  cmd : Option String
  class_regex : Option String
  workspace : Option Int
  monitor : Option String
  timeout_s : Option Int
  deriving DecidableEq, Repr

/-- The `[general]` table as returned by `tomllib.load`. -/
structure TomlGeneral where
  prewarm_workspaces : Option (List Int)
  poll_interval_ms : Option Int
  default_timeout_s : Option Int
  deriving DecidableEq, Repr

/-- The whole parsed TOML document. -/
structure TomlData where
  general : Option TomlGeneral
  app : Option (List TomlApp)
  deriving DecidableEq, Repr

/-- The `KeyError` raised by `app["…"]` on a missing required key. -/
inductive LoadError where
  | keyError : String → LoadError
  deriving DecidableEq, Repr

/-- One iteration of the `for app in data.get("app", [])` loop:
`name`, `cmd`, `class_regex` and `workspace` are required (a missing one
raises `KeyError`), `monitor` and `timeout_s` are optional. -/
def loadApp (a : TomlApp) : Except LoadError AppRule :=
  match a.name with
  | none => .error (.keyError "name")
  | some nm =>
    match a.cmd with
    | none => .error (.keyError "cmd")
    | some cm =>
      match a.class_regex with
      | none => .error (.keyError "class_regex")
      | some rx =>
        match a.workspace with
        | none => .error (.keyError "workspace")
        | some ws => .ok ⟨nm, cm, rx, ws, a.monitor, a.timeout_s⟩

/-- `load_config` over the parsed document: defaults `[]`, `200`, `20`
for the general section; the app tables loaded in order.  No field value
is validated beyond presence — in particular `poll_interval_ms` is
accepted unchecked. -/
def load_config (d : TomlData) : Except LoadError Config :=
  let g := d.general.getD ⟨none, none, none⟩
  let gc : GeneralCfg :=
    ⟨g.prewarm_workspaces.getD [], g.poll_interval_ms.getD 200,
     g.default_timeout_s.getD 20⟩
  match (d.app.getD []).mapM loadApp with
  | .error e => .error e
  | .ok apps => .ok ⟨gc, apps⟩

/-! ### Event classifiers -/

/-- Is the event a process launch? -/
def isSpawnE : Event → Bool
  | .spawnP _ => true
  | _ => false

/-- Is the event a `run` of an `hyprctl` command line? -/
def isRunCmdE : Event → Bool
  | .runCmd _ => true
  | _ => false

/-- Is the event a window-snapshot fetch? -/
def isQueryE : Event → Bool
  | .queryClients => true
  | _ => false

/-- Is the event a sleep? -/
def isSleepE : Event → Bool
  | .sleepMs _ => true
  | _ => false

/-- Does the first list lead the second (elementwise equal on the whole
first list)? -/
def leadChars : List Char → List Char → Bool
  | [], _ => true
  | _ :: _, [] => false
  | a :: as, b :: bs => a == b && leadChars as bs

/-- Is the event a batched (`hyprctl --batch …`) command? -/
def isBatchE : Event → Bool
  | .runCmd s => leadChars ("hyprctl --batch".data) s.data
  | _ => false

/-! ### General lemmas about the embedding -/

theorem data_append_eq (a b : String) : (a ++ b).data = a.data ++ b.data := rfl

/-- A placement (`hyprctl dispatch …`) command is not a batched command. -/
theorem dispatch_not_batch (c : String) : isBatchE (.runCmd (dispatchCmd c)) = false := by
  show leadChars ("hyprctl --batch".data) (("hyprctl dispatch " ++ c).data) = false
  rw [data_append_eq]
  have h1 : "hyprctl --batch".data =
      ['h','y','p','r','c','t','l',' ','-','-','b','a','t','c','h'] := rfl
  have h2 : "hyprctl dispatch ".data =
      ['h','y','p','r','c','t','l',' ','d','i','s','p','a','t','c','h',' '] := rfl
  rw [h1, h2]
  simp +decide [leadChars]

/-- The prewarm command is a batched command. -/
theorem prewarm_is_batch (ws : List Int) : isBatchE (.runCmd (prewarmBatchCmd ws)) = true := by
  show leadChars ("hyprctl --batch".data) ((prewarmBatchCmd ws).data) = true
  unfold prewarmBatchCmd
  rw [data_append_eq, data_append_eq]
  have h1 : "hyprctl --batch".data =
      ['h','y','p','r','c','t','l',' ','-','-','b','a','t','c','h'] := rfl
  have h2 : "hyprctl --batch \x27".data =
      ['h','y','p','r','c','t','l',' ','-','-','b','a','t','c','h',' ','\x27'] := rfl
  rw [h1, h2]
  simp +decide [leadChars]

/-- The scan over one snapshot returns the address field of the first
window, in snapshot order, whose class searches positive. -/
theorem scanClients_eq_find (pat : Regex) (clients : List Window) :
    scanClients pat clients
      = (clients.find? (fun c => rsearchL pat (classString c).data)).map Window.address := by
  induction clients with
  | nil => rfl
  | cons c rest ih =>
    by_cases h : rsearchL pat (classString c).data
    · simp [scanClients, h, List.find?_cons_of_pos]
    · simp only [Bool.not_eq_true] at h
      simp [scanClients, h, List.find?_cons_of_neg, ih]

/-- The empty pattern matches every subject. -/
theorem rsearchL_eps (cs : List Char) : rsearchL Regex.eps cs = true := by
  cases cs with
  | nil => rfl
  | cons c cs => simp [rsearchL, matchPref, nullable]

/-- With a positive poll interval, enough fuel makes the loop return:
the outcome is a `result` (found or `None`), never fuel exhaustion. -/
theorem waitAux_result (pat : Regex) (polls : Nat → List Window) (T pms : Int)
    (hp : 1 ≤ pms) :
    ∀ (fuel k : Nat), (T - (k : Int) * pms).toNat < fuel →
      ∃ a, (waitAux pat polls T pms fuel k).outcome = .result a := by
  intro fuel
  induction fuel with
  | zero => intro k h; omega
  | succ n ih =>
    intro k h
    unfold waitAux
    by_cases hc : (k : Int) * pms < T
    · simp only [hc, if_true]
      cases hs : scanClients pat (polls k) with
      | some a => exact ⟨a, rfl⟩
      | none =>
        simp only []
        apply ih (k + 1)
        have hk1 : ((k + 1 : Nat) : Int) * pms = (k : Int) * pms + pms := by
          push_cast; ring
        rw [hk1]
        have he : (0 : Int) < T - (k : Int) * pms := by
          have := hc; omega
        generalize hE : T - (k : Int) * pms = e at *
        have : T - ((k : Int) * pms + pms) = e - pms := by omega
        rw [this]
        omega
    · exact ⟨none, by simp [hc]⟩

/-- Every event the loop emits is a snapshot fetch or a sleep of the
configured interval. -/
theorem waitAux_events_mem (pat : Regex) (polls : Nat → List Window) (T pms : Int) :
    ∀ (fuel k : Nat), ∀ e ∈ (waitAux pat polls T pms fuel k).events,
      e = Event.queryClients ∨ e = Event.sleepMs pms := by
  intro fuel
  induction fuel with
  | zero => intro k e he; simp [waitAux] at he
  | succ n ih =>
    intro k e he
    unfold waitAux at he
    by_cases hc : (k : Int) * pms < T
    · simp only [hc, if_true] at he
      cases hs : scanClients pat (polls k) with
      | some a => rw [hs] at he; simp at he; simp [he]
      | none =>
        rw [hs] at he
        simp only [List.mem_cons] at he
        rcases he with rfl | rfl | he
        · exact Or.inl rfl
        · exact Or.inr rfl
        · exact ih (k + 1) e he
    · simp [hc] at he

/-- With a positive poll interval the full wait (started at iteration 0,
with the fuel the wrapper supplies) returns a `result`. -/
theorem waitCompiled_result (pat : Regex) (polls : Nat → List Window)
    (t pms : Int) (hp : 1 ≤ pms) :
    ∃ a, (waitCompiled pat polls t pms).outcome = .result a := by
  apply waitAux_result pat polls (t * 1000) pms hp
  have h0 : ((0 : Nat) : Int) * pms = 0 := by simp
  rw [h0]
  omega

/-- Every event of a `wait_for_window` call is a fetch or a sleep. -/
theorem wait_events_mem (rx : String) (polls : Nat → List Window) (t pms : Int) :
    ∀ e ∈ (wait_for_window rx polls t pms).events,
      e = Event.queryClients ∨ e = Event.sleepMs pms := by
  intro e he
  unfold wait_for_window at he
  cases hc : re_compile rx with
  | none => rw [hc] at he; simp at he
  | some pat =>
    rw [hc] at he
    exact waitAux_events_mem pat polls (t * 1000) pms _ 0 e he

/-- A rule whose pattern compiles, run with a positive poll interval,
never aborts the run. -/
theorem processRule_snd_none (gen : GeneralCfg) (dry : Bool)
    (polls : Nat → List Window) (rule : AppRule)
    (hc : (re_compile rule.class_regex).isSome = true)
    (hp : 1 ≤ gen.poll_interval_ms) :
    (processRule gen dry polls rule).2 = none := by
  obtain ⟨pat, hpat⟩ := Option.isSome_iff_exists.mp hc
  obtain ⟨a, ha⟩ := waitCompiled_result pat polls (effective_timeout rule gen)
    gen.poll_interval_ms hp
  show ruleError (wait_for_window rule.class_regex polls
    (effective_timeout rule gen) gen.poll_interval_ms).outcome = none
  unfold wait_for_window
  rw [hpat, ha]
  rfl

/-- The second component of a rule's processing does not depend on
dry-run mode (the wait is performed either way). -/
theorem processRule_snd_dry_eq (gen : GeneralCfg) (polls : Nat → List Window)
    (rule : AppRule) :
    (processRule gen true polls rule).2 = (processRule gen false polls rule).2 := rfl

/-- The rule loop, when every pattern compiles and the poll interval is
positive: the trace is the concatenation of the per-rule traces in
declaration order, and the exit status is 0. -/
theorem orchRules_eq (gen : GeneralCfg) (dry : Bool) (env : Nat → Nat → List Window)
    (hp : 1 ≤ gen.poll_interval_ms) :
    ∀ (rs : List AppRule) (i : Nat),
      (∀ r ∈ rs, (re_compile r.class_regex).isSome = true) →
      orchRules gen dry env i rs
        = (((rs.enumFrom i).map
              (fun p => (processRule gen dry (env p.1) p.2).1)).flatten,
           Except.ok 0) := by
  intro rs
  induction rs with
  | nil => intro i _; rfl
  | cons rule rest ih =>
    intro i hall
    have hrule : (re_compile rule.class_regex).isSome = true :=
      hall rule (List.mem_cons_self rule rest)
    have hrest : ∀ r ∈ rest, (re_compile r.class_regex).isSome = true :=
      fun r hr => hall r (List.mem_cons_of_mem rule hr)
    have hsnd := processRule_snd_none gen dry (env i) rule hrule hp
    show (match processRule gen dry (env i) rule with
      | (evts, some e) => (evts, Except.error e)
      | (evts, none) =>
        let r := orchRules gen dry env (i + 1) rest
        (evts ++ r.1, r.2)) = _
    rcases hpr : processRule gen dry (env i) rule with ⟨evts, err⟩
    rw [hpr] at hsnd
    simp only at hsnd
    subst hsnd
    simp only [ih (i + 1) hrest, List.enumFrom, List.map_cons, List.flatten_cons]
    have : (processRule gen dry (env i) rule).1 = evts := by rw [hpr]
    rw [this]

theorem isBatchE_logLine (s : String) : isBatchE (.logLine s) = false := rfl

theorem isBatchE_spawn (s : String) : isBatchE (.spawnP s) = false := rfl

theorem isBatchE_warn (s : String) : isBatchE (.warn s) = false := rfl

theorem isBatchE_query : isBatchE .queryClients = false := rfl

theorem isBatchE_sleep (n : Int) : isBatchE (.sleepMs n) = false := rfl

/-- A wait emits no batched command. -/
theorem countP_isBatch_wait (rx : String) (polls : Nat → List Window) (t pms : Int) :
    ((wait_for_window rx polls t pms).events).countP isBatchE = 0 := by
  apply List.countP_eq_zero.mpr
  intro e he
  rcases wait_events_mem rx polls t pms e he with rfl | rfl <;> simp [isBatchE]

theorem countP_isBatch_launch (dry : Bool) (rule : AppRule) :
    (launchEvents dry rule).countP isBatchE = 0 := by
  cases dry <;>
    simp [launchEvents, List.countP_cons, isBatchE_logLine, isBatchE_spawn]

theorem countP_isBatch_resolution (dry : Bool) (rule : AppRule) (out : WaitOutcome) :
    (resolutionEvents dry rule out).countP isBatchE = 0 := by
  cases out with
  | invalidPattern => rfl
  | diverge => rfl
  | result a =>
    by_cases h : truthy a
    · by_cases hm : truthy rule.monitor <;> cases dry <;>
        simp [resolutionEvents, h, hm, placementEvents, move_to_workspace_cmd,
          move_to_monitor_cmds, List.countP_cons, isBatchE_logLine, dispatch_not_batch]
    · simp only [Bool.not_eq_true] at h
      simp [resolutionEvents, h, List.countP_cons, isBatchE_warn]

/-- A rule's processing emits no batched command. -/
theorem processRule_no_batch (gen : GeneralCfg) (dry : Bool)
    (polls : Nat → List Window) (rule : AppRule) :
    ((processRule gen dry polls rule).1).countP isBatchE = 0 := by
  show ((launchEvents dry rule ++ _ ++ _)).countP isBatchE = 0
  simp [List.countP_append, countP_isBatch_launch, countP_isBatch_wait,
    countP_isBatch_resolution]

/-- The whole rule loop emits no batched command. -/
theorem orchRules_no_batch (gen : GeneralCfg) (dry : Bool)
    (env : Nat → Nat → List Window) :
    ∀ (rs : List AppRule) (i : Nat),
      ((orchRules gen dry env i rs).1).countP isBatchE = 0 := by
  intro rs
  induction rs with
  | nil => intro i; rfl
  | cons rule rest ih =>
    intro i
    show (match processRule gen dry (env i) rule with
      | (evts, some e) => (evts, Except.error e)
      | (evts, none) =>
        let r := orchRules gen dry env (i + 1) rest
        (evts ++ r.1, r.2)).1.countP isBatchE = 0
    rcases hpr : processRule gen dry (env i) rule with ⟨evts, err⟩
    have hev : evts.countP isBatchE = 0 := by
      have h := processRule_no_batch gen dry (env i) rule
      rw [hpr] at h
      exact h
    cases err <;> simp [List.countP_append, hev, ih]

/-- A wait emits no launch and no command; its fetches are its queries. -/
theorem filter_spawn_wait (rx : String) (polls : Nat → List Window) (t pms : Int) :
    ((wait_for_window rx polls t pms).events).filter isSpawnE = [] := by
  apply List.filter_eq_nil_iff.mpr
  intro e he
  rcases wait_events_mem rx polls t pms e he with rfl | rfl <;> simp [isSpawnE]

theorem filter_runCmd_wait (rx : String) (polls : Nat → List Window) (t pms : Int) :
    ((wait_for_window rx polls t pms).events).filter isRunCmdE = [] := by
  apply List.filter_eq_nil_iff.mpr
  intro e he
  rcases wait_events_mem rx polls t pms e he with rfl | rfl <;> simp [isRunCmdE]

theorem filter_query_launch (dry : Bool) (rule : AppRule) :
    (launchEvents dry rule).filter isQueryE = [] := by
  cases dry <;> rfl

theorem filter_spawn_launch_dry (rule : AppRule) :
    (launchEvents true rule).filter isSpawnE = [] := rfl

theorem filter_runCmd_launch (dry : Bool) (rule : AppRule) :
    (launchEvents dry rule).filter isRunCmdE = [] := by
  cases dry <;> rfl

theorem filter_query_resolution (dry : Bool) (rule : AppRule) (out : WaitOutcome) :
    (resolutionEvents dry rule out).filter isQueryE = [] := by
  cases out with
  | invalidPattern => rfl
  | diverge => rfl
  | result a =>
    by_cases h : truthy a
    · by_cases hm : truthy rule.monitor <;> cases dry <;>
        simp [resolutionEvents, h, hm, placementEvents, move_to_workspace_cmd,
          move_to_monitor_cmds, isQueryE]
    · simp only [Bool.not_eq_true] at h
      simp [resolutionEvents, h, isQueryE]

theorem filter_spawn_resolution (dry : Bool) (rule : AppRule) (out : WaitOutcome) :
    (resolutionEvents dry rule out).filter isSpawnE = [] := by
  cases out with
  | invalidPattern => rfl
  | diverge => rfl
  | result a =>
    by_cases h : truthy a
    · by_cases hm : truthy rule.monitor <;> cases dry <;>
        simp [resolutionEvents, h, hm, placementEvents, move_to_workspace_cmd,
          move_to_monitor_cmds, isSpawnE]
    · simp only [Bool.not_eq_true] at h
      simp [resolutionEvents, h, isSpawnE]

theorem filter_runCmd_resolution_dry (rule : AppRule) (out : WaitOutcome) :
    (resolutionEvents true rule out).filter isRunCmdE = [] := by
  cases out with
  | invalidPattern => rfl
  | diverge => rfl
  | result a =>
    by_cases h : truthy a
    · simp [resolutionEvents, h, isRunCmdE]
    · simp only [Bool.not_eq_true] at h
      simp [resolutionEvents, h, isRunCmdE]

/-- A dry-run rule launches nothing, issues no command, and fetches the
same snapshots as the same rule in a live run. -/
theorem processRule_dry_facts (gen : GeneralCfg) (polls : Nat → List Window)
    (rule : AppRule) :
    ((processRule gen true polls rule).1).filter isSpawnE = []
    ∧ ((processRule gen true polls rule).1).filter isRunCmdE = []
    ∧ ((processRule gen true polls rule).1).filter isQueryE
        = ((processRule gen false polls rule).1).filter isQueryE := by
  refine ⟨?_, ?_, ?_⟩
  · show ((launchEvents true rule ++ _ ++ _)).filter isSpawnE = []
    simp [List.filter_append, filter_spawn_launch_dry, filter_spawn_wait,
      filter_spawn_resolution]
  · show ((launchEvents true rule ++ _ ++ _)).filter isRunCmdE = []
    simp [List.filter_append, filter_runCmd_launch, filter_runCmd_wait,
      filter_runCmd_resolution_dry]
  · show ((launchEvents true rule ++ _ ++ _)).filter isQueryE
      = ((launchEvents false rule ++ _ ++ _)).filter isQueryE
    simp [List.filter_append, filter_query_launch, filter_query_resolution]

/-- The whole rule loop in dry-run mode: no launches, no commands, and
the same snapshot fetches as the live run. -/
theorem orchRules_dry_facts (gen : GeneralCfg) (env : Nat → Nat → List Window) :
    ∀ (rs : List AppRule) (i : Nat),
      ((orchRules gen true env i rs).1).filter isSpawnE = []
      ∧ ((orchRules gen true env i rs).1).filter isRunCmdE = []
      ∧ ((orchRules gen true env i rs).1).filter isQueryE
          = ((orchRules gen false env i rs).1).filter isQueryE := by
  intro rs
  induction rs with
  | nil => intro i; exact ⟨rfl, rfl, rfl⟩
  | cons rule rest ih =>
    intro i
    have hfacts := processRule_dry_facts gen (env i) rule
    have herr := processRule_snd_dry_eq gen (env i) rule
    show ((match processRule gen true (env i) rule with
      | (evts, some e) => (evts, Except.error e)
      | (evts, none) =>
        let r := orchRules gen true env (i + 1) rest
        (evts ++ r.1, r.2)).1.filter isSpawnE = []
      ∧ (match processRule gen true (env i) rule with
      | (evts, some e) => (evts, Except.error e)
      | (evts, none) =>
        let r := orchRules gen true env (i + 1) rest
        (evts ++ r.1, r.2)).1.filter isRunCmdE = []
      ∧ (match processRule gen true (env i) rule with
      | (evts, some e) => (evts, Except.error e)
      | (evts, none) =>
        let r := orchRules gen true env (i + 1) rest
        (evts ++ r.1, r.2)).1.filter isQueryE
        = (match processRule gen false (env i) rule with
      | (evts, some e) => (evts, Except.error e)
      | (evts, none) =>
        let r := orchRules gen false env (i + 1) rest
        (evts ++ r.1, r.2)).1.filter isQueryE)
    rcases hprT : processRule gen true (env i) rule with ⟨evtsT, errT⟩
    rcases hprF : processRule gen false (env i) rule with ⟨evtsF, errF⟩
    rw [hprT, hprF] at herr
    simp only at herr
    rw [hprT, hprF] at hfacts
    simp only at hfacts
    subst herr
    cases errT with
    | some e => exact ⟨hfacts.1, hfacts.2.1, hfacts.2.2⟩
    | none =>
      refine ⟨?_, ?_, ?_⟩
      · simp [List.filter_append, hfacts.1, (ih (i + 1)).1]
      · simp [List.filter_append, hfacts.2.1, (ih (i + 1)).2.1]
      · simp [List.filter_append, hfacts.2.2, (ih (i + 1)).2.2]

/-! ### Claim theorems -/

/-- C1 (amended): for every snapshot and every compiled pattern, the
waiter's scan returns the `address` field of the first window in
snapshot order whose class string matches the pattern under `re.search`
(substring) semantics, not full match; a window whose class field is
missing or empty is treated as having the empty-string class; an empty
pattern matches every window; and (amendment) an empty-class window
matches the pattern exactly when the pattern matches within the empty
string — so it can match a non-empty pattern such as `a*`. -/
theorem C1_scan_semantics :
    (∀ (pat : Regex) (clients : List Window),
        scanClients pat clients
          = (clients.find? (fun c => rsearchL pat (classString c).data)).map Window.address)
    ∧ (∀ a : Option String, classString ⟨a, none⟩ = "" ∧ classString ⟨a, some ""⟩ = "")
    ∧ re_compile "" = some Regex.eps
    ∧ (∀ cs : List Char, rsearchL Regex.eps cs = true)
    ∧ (∀ (pat : Regex) (a : Option String),
        scanClients pat [⟨a, none⟩] = if rsearchL pat [] then some a else none) := by
  refine ⟨scanClients_eq_find, fun a => ⟨rfl, rfl⟩, rfl, rsearchL_eps, ?_⟩
  intro pat a
  by_cases h : rsearchL pat [] <;> simp [scanClients, classString, h]

/-- C1 counterexample: `a*` is a non-empty, syntactically valid pattern,
yet a window whose class field is missing (treated as the empty string)
matches it, so the scan returns that window's address — refuting "a
missing or empty class never matches a non-empty pattern". -/
theorem C1_counterexample :
    re_compile "a*" = some (Regex.star (Regex.char 'a'))
    ∧ "a*" ≠ ""
    ∧ scanClients (Regex.star (Regex.char 'a')) [⟨some "0x1", none⟩]
        = some (some "0x1") := by
  refine ⟨rfl, by decide, rfl⟩

/-- C2 (amended): a dry run issues the prewarm command, zero process
launches and zero placement commands, but it does not skip the waits:
its snapshot fetches are exactly those of the corresponding live run. -/
theorem C2_dry_run_amended (cfg : Config) (env : Nat → Nat → List Window) :
    ((orchestrate cfg true env).1).filter isSpawnE = []
    ∧ ((orchestrate cfg true env).1).filter isRunCmdE
        = prewarmEvents cfg.general.prewarm_workspaces
    ∧ ((orchestrate cfg true env).1).filter isQueryE
        = ((orchestrate cfg false env).1).filter isQueryE := by
  have hd := orchRules_dry_facts cfg.general env cfg.apps 0
  refine ⟨?_, ?_, ?_⟩
  · show ((prewarmEvents _ ++ (orchRules cfg.general true env 0 cfg.apps).1)).filter
      isSpawnE = []
    rw [List.filter_append, hd.1]
    by_cases h : cfg.general.prewarm_workspaces = [] <;>
      simp [prewarmEvents, h, isSpawnE]
  · show ((prewarmEvents _ ++ (orchRules cfg.general true env 0 cfg.apps).1)).filter
      isRunCmdE = _
    rw [List.filter_append, hd.2.1]
    by_cases h : cfg.general.prewarm_workspaces = [] <;>
      simp [prewarmEvents, h, isRunCmdE]
  · show ((prewarmEvents _ ++ (orchRules cfg.general true env 0 cfg.apps).1)).filter
      isQueryE
      = ((prewarmEvents _ ++ (orchRules cfg.general false env 0 cfg.apps).1)).filter
      isQueryE
    rw [List.filter_append, List.filter_append, hd.2.2]

/-- C2 counterexample: one rule with timeout 1 s and poll interval
1000 ms against an always-empty window source: the dry run performs a
snapshot fetch (a wait-poll), refuting "zero wait-polls". -/
theorem C2_counterexample :
    ((orchestrate ⟨⟨[3], 1000, 20⟩, [⟨"term", "xterm", "xterm", 2, none, some 1⟩]⟩
        true (fun _ _ => [])).1).countP isQueryE ≠ 0 := by decide

/-- C3: for every timeout `t ≤ 0` (and compilable pattern), the wait
returns `None` (NotFound) immediately: it emits no events at all, hence
sleeps zero times and performs at most one (in fact zero) snapshot
fetches, and it does not diverge. -/
theorem C3_nonpositive_timeout (rx : String) (pat : Regex)
    (hc : re_compile rx = some pat) (polls : Nat → List Window)
    (t pms : Int) (ht : t ≤ 0) :
    wait_for_window rx polls t pms = ⟨.result none, []⟩
    ∧ ((wait_for_window rx polls t pms).events).countP isQueryE ≤ 1
    ∧ ((wait_for_window rx polls t pms).events).countP isSleepE = 0 := by
  have h1 : wait_for_window rx polls t pms = ⟨.result none, []⟩ := by
    unfold wait_for_window
    rw [hc]
    unfold waitCompiled
    have h0 : (t * 1000).toNat = 0 := by omega
    rw [h0]
    show waitAux pat polls (t * 1000) pms (Nat.succ 0) 0 = _
    unfold waitAux
    have hcond : ¬ (0 : Int) < t := by omega
    simp [hcond]
  refine ⟨h1, ?_, ?_⟩ <;> rw [h1]
  · simp
  · simp

/-- C3 witness at timeout 0, poll interval 200. -/
theorem C3_witness :
    re_compile "a" = some (Regex.char 'a')
    ∧ (0 : Int) ≤ 0
    ∧ wait_for_window "a" (fun _ => []) 0 200 = ⟨.result none, []⟩ :=
  ⟨rfl, le_refl 0,
    (C3_nonpositive_timeout "a" (Regex.char 'a') rfl (fun _ => []) 0 200 (le_refl 0)).1⟩

/-- C4 (amended): the effective wait timeout is the rule's `timeout_s`
when present and non-zero, and the general default both when the field
is absent and when it is present with value 0 (Python's `or` treats the
integer 0 as falsy); the third conjunct shows this value is exactly what
`processRule` hands to `wait_for_window`. -/
theorem C4_effective_timeout_amended (gen : GeneralCfg) (nm cm rx : String)
    (ws : Int) (mon : Option String) :
    (∀ t : Int, effective_timeout ⟨nm, cm, rx, ws, mon, some t⟩ gen
        = if t = 0 then gen.default_timeout_s else t)
    ∧ effective_timeout ⟨nm, cm, rx, ws, mon, none⟩ gen = gen.default_timeout_s
    ∧ (∀ (dry : Bool) (polls : Nat → List Window) (rule : AppRule),
        processRule gen dry polls rule
          = (launchEvents dry rule
              ++ (wait_for_window rule.class_regex polls (effective_timeout rule gen)
                    gen.poll_interval_ms).events
              ++ resolutionEvents dry rule
                  (wait_for_window rule.class_regex polls (effective_timeout rule gen)
                    gen.poll_interval_ms).outcome,
             ruleError (wait_for_window rule.class_regex polls (effective_timeout rule gen)
                    gen.poll_interval_ms).outcome)) :=
  ⟨fun _ => rfl, rfl, fun _ _ _ => rfl⟩

/-- C4 counterexample: a rule with `timeout_s` present and equal to 0
resolves to the default 20, not to its override 0 as the claim states. -/
theorem C4_counterexample :
    effective_timeout ⟨"term", "xterm", "xterm", 2, none, some 0⟩ ⟨[], 200, 20⟩ = 20
    ∧ effective_timeout ⟨"term", "xterm", "xterm", 2, none, some 0⟩ ⟨[], 200, 20⟩ ≠ 0 := by
  decide

/-- C5: when every rule's pattern compiles (and the poll interval is
positive, so every wait terminates), the run returns exit status 0 no
matter how many rules time out; and any rule whose wait resolves to a
falsy address emits exactly the timeout warning (naming the rule and its
pattern, via `warnLine`) and continues without error. -/
theorem C5_success_despite_timeouts (cfg : Config) (dry : Bool)
    (env : Nat → Nat → List Window)
    (hpat : ∀ r ∈ cfg.apps, (re_compile r.class_regex).isSome = true)
    (hp : 1 ≤ cfg.general.poll_interval_ms) :
    (orchestrate cfg dry env).2 = Except.ok 0
    ∧ ∀ (polls : Nat → List Window) (rule : AppRule) (a : Option String),
        (wait_for_window rule.class_regex polls (effective_timeout rule cfg.general)
            cfg.general.poll_interval_ms).outcome = .result a →
        truthy a = false →
        processRule cfg.general dry polls rule
          = (launchEvents dry rule
              ++ (wait_for_window rule.class_regex polls (effective_timeout rule cfg.general)
                    cfg.general.poll_interval_ms).events
              ++ [Event.warn (warnLine rule)],
             none) := by
  constructor
  · show (orchRules cfg.general dry env 0 cfg.apps).2 = Except.ok 0
    rw [orchRules_eq cfg.general dry env hp cfg.apps 0 hpat]
  · intro polls rule a hout hfalsy
    show (launchEvents dry rule
        ++ (wait_for_window rule.class_regex polls (effective_timeout rule cfg.general)
              cfg.general.poll_interval_ms).events
        ++ resolutionEvents dry rule
            (wait_for_window rule.class_regex polls (effective_timeout rule cfg.general)
              cfg.general.poll_interval_ms).outcome,
       ruleError (wait_for_window rule.class_regex polls (effective_timeout rule cfg.general)
              cfg.general.poll_interval_ms).outcome) = _
    rw [hout]
    simp [resolutionEvents, hfalsy, ruleError]

/-- C5 witness: a one-rule config whose window never appears still exits
with status 0. -/
theorem C5_witness :
    (∀ r ∈ [(⟨"term", "xterm", "xterm", 2, none, none⟩ : AppRule)],
        (re_compile r.class_regex).isSome = true)
    ∧ (1 : Int) ≤ 50
    ∧ (orchestrate ⟨⟨[3, 5], 50, 1⟩, [⟨"term", "xterm", "xterm", 2, none, none⟩]⟩ false
        (fun _ _ => [])).2 = Except.ok 0 :=
  ⟨by decide, by decide,
    (C5_success_despite_timeouts
      ⟨⟨[3, 5], 50, 1⟩, [⟨"term", "xterm", "xterm", 2, none, none⟩]⟩ false
      (fun _ _ => []) (by decide) (by decide)).1⟩

/-- C6: rules are processed strictly in declaration order — the run's
trace is the prewarm followed by the concatenation, in declared order,
of the complete per-rule traces, so nothing of rule i+1 appears before
everything of rule i (including its wait resolution); and within one
rule the events are launch part, then the wait's fetch/sleep events,
then the resolution (placement or warning). -/
theorem C6_sequential_order (cfg : Config) (dry : Bool)
    (env : Nat → Nat → List Window)
    (hpat : ∀ r ∈ cfg.apps, (re_compile r.class_regex).isSome = true)
    (hp : 1 ≤ cfg.general.poll_interval_ms) :
    (orchestrate cfg dry env).1
      = prewarmEvents cfg.general.prewarm_workspaces
          ++ (((cfg.apps.enumFrom 0).map
                (fun p => (processRule cfg.general dry (env p.1) p.2).1)).flatten)
    ∧ ∀ (polls : Nat → List Window) (rule : AppRule),
        (processRule cfg.general dry polls rule).1
          = launchEvents dry rule
              ++ (wait_for_window rule.class_regex polls (effective_timeout rule cfg.general)
                    cfg.general.poll_interval_ms).events
              ++ resolutionEvents dry rule
                  (wait_for_window rule.class_regex polls (effective_timeout rule cfg.general)
                    cfg.general.poll_interval_ms).outcome := by
  constructor
  · show prewarmEvents _ ++ (orchRules cfg.general dry env 0 cfg.apps).1 = _
    rw [orchRules_eq cfg.general dry env hp cfg.apps 0 hpat]
  · intro polls rule
    rfl

/-- C6 witness: a two-rule config; the trace decomposes into prewarm and
the per-rule traces in declaration order. -/
theorem C6_witness :
    (orchestrate ⟨⟨[7], 100, 1⟩,
        [⟨"a1", "cmd1", "x", 1, none, none⟩, ⟨"a2", "cmd2", "y", 2, none, none⟩]⟩ false
        (fun _ _ => [])).1
      = prewarmEvents [7]
          ++ ((([(⟨"a1", "cmd1", "x", 1, none, none⟩ : AppRule),
                 ⟨"a2", "cmd2", "y", 2, none, none⟩].enumFrom 0).map
                (fun p => (processRule ⟨[7], 100, 1⟩ false
                    ((fun _ _ => ([] : List Window)) p.1) p.2).1)).flatten) :=
  (C6_sequential_order
    ⟨⟨[7], 100, 1⟩,
      [⟨"a1", "cmd1", "x", 1, none, none⟩, ⟨"a2", "cmd2", "y", 2, none, none⟩]⟩ false
    (fun _ _ => []) (by decide) (by decide)).1

/-- C7: the run's trace starts with the prewarm (before any rule event,
for any dry-run setting); the prewarm is nothing when the list is empty
and otherwise exactly one batched command covering the workspaces in
listed order; and the whole run contains exactly one batched command
(zero when the list is empty). -/
theorem C7_prewarm_once (cfg : Config) (dry : Bool) (env : Nat → Nat → List Window) :
    (orchestrate cfg dry env).1
      = prewarmEvents cfg.general.prewarm_workspaces
          ++ (orchRules cfg.general dry env 0 cfg.apps).1
    ∧ prewarmEvents cfg.general.prewarm_workspaces
      = (if cfg.general.prewarm_workspaces = [] then []
         else [Event.runCmd (prewarmBatchCmd cfg.general.prewarm_workspaces)])
    ∧ ((orchestrate cfg dry env).1).countP isBatchE
      = (if cfg.general.prewarm_workspaces = [] then 0 else 1) := by
  refine ⟨rfl, rfl, ?_⟩
  show ((prewarmEvents _ ++ (orchRules cfg.general dry env 0 cfg.apps).1)).countP
    isBatchE = _
  rw [List.countP_append, orchRules_no_batch]
  by_cases h : cfg.general.prewarm_workspaces = [] <;>
    simp [prewarmEvents, h, List.countP_cons, prewarm_is_batch]

/-- C8: a pattern that fails to compile makes `wait_for_window` fail with
the pattern error before any polling (its trace is empty — no fetch, no
sleep), and the error propagates out of the rule's processing as an
exception (the rule ends in `some invalidPattern`, not in a NotFound
warning: its events are just the launch part, with no `warnLine`). -/
theorem C8_invalid_pattern_propagates (gen : GeneralCfg) (dry : Bool)
    (polls : Nat → List Window) (rule : AppRule) (t pms : Int)
    (h : re_compile rule.class_regex = none) :
    wait_for_window rule.class_regex polls t pms = ⟨.invalidPattern, []⟩
    ∧ (processRule gen dry polls rule).2 = some WaitOutcome.invalidPattern
    ∧ (processRule gen dry polls rule).1 = launchEvents dry rule := by
  have hw : ∀ t2 pms2 : Int,
      wait_for_window rule.class_regex polls t2 pms2 = ⟨.invalidPattern, []⟩ := by
    intro t2 pms2
    unfold wait_for_window
    rw [h]
  refine ⟨hw t pms, ?_, ?_⟩
  · show ruleError (wait_for_window rule.class_regex polls
      (effective_timeout rule gen) gen.poll_interval_ms).outcome = _
    rw [hw]
    rfl
  · show launchEvents dry rule
        ++ (wait_for_window rule.class_regex polls
              (effective_timeout rule gen) gen.poll_interval_ms).events
        ++ resolutionEvents dry rule
            (wait_for_window rule.class_regex polls
              (effective_timeout rule gen) gen.poll_interval_ms).outcome = _
    rw [hw]
    simp [resolutionEvents]

/-- C8 witness: the malformed pattern `*` ("nothing to repeat"). -/
theorem C8_witness :
    re_compile "*" = none
    ∧ (processRule ⟨[], 200, 20⟩ false (fun _ => [])
        ⟨"bad", "cmd", "*", 1, none, none⟩).2 = some WaitOutcome.invalidPattern :=
  ⟨rfl,
    (C8_invalid_pattern_propagates ⟨[], 200, 20⟩ false (fun _ => [])
      ⟨"bad", "cmd", "*", 1, none, none⟩ 20 200 rfl).2.1⟩

/-- With poll interval 0 (and a source that never matches), elapsed
virtual time never advances, so the loop runs until its fuel ends:
a busy loop. -/
theorem waitAux_zero_interval_diverges (pat : Regex) (polls : Nat → List Window)
    (T : Int) (hT : 0 < T) (hscan : ∀ j, scanClients pat (polls j) = none) :
    ∀ (fuel k : Nat), (waitAux pat polls T 0 fuel k).outcome = .diverge := by
  intro fuel
  induction fuel with
  | zero => intro k; rfl
  | succ n ih =>
    intro k
    unfold waitAux
    simp [hT, hscan k, ih (k + 1)]

/-- C9: the code performs no validation of `poll_interval_ms`, contrary
to the claim: `load_config` accepts the value 0 and returns a normal
configuration, the orchestrator then proceeds instead of aborting
fatally before any action, and a wait with poll interval 0 and a
positive timeout busy-loops (the model's `diverge`) instead of being
rejected as a configuration error. -/
theorem C9_poll_interval_not_validated :
    load_config ⟨some ⟨none, some 0, none⟩,
        some [⟨some "term", some "xterm", some "xterm", some 2, none, none⟩]⟩
      = Except.ok ⟨⟨[], 0, 20⟩, [⟨"term", "xterm", "xterm", 2, none, none⟩]⟩
    ∧ (orchestrate ⟨⟨[], 0, 20⟩, []⟩ false (fun _ _ => [])).2 = Except.ok 0
    ∧ (waitCompiled (Regex.char 'a') (fun _ => []) 1 0).outcome
        = WaitOutcome.diverge := by
  refine ⟨rfl, rfl, ?_⟩
  exact waitAux_zero_interval_diverges (Regex.char 'a') (fun _ => []) (1 * 1000)
    (by omega) (fun _ => rfl) ((1 * 1000 : Int).toNat + 1) 0

/-- C10: when the first matching window of the first fetched snapshot has
a falsy address field (missing, hence `None`, or the empty string), the
rule is handled as a timeout: the wait returns that falsy value at its
first fetch, the orchestrator emits the timeout warning, issues no
placement command, and continues without error — even though a matching
window was present. -/
theorem C10_falsy_address_timeout (gen : GeneralCfg) (dry : Bool)
    (polls : Nat → List Window) (rule : AppRule) (pat : Regex) (a : Option String)
    (hc : re_compile rule.class_regex = some pat)
    (ht : 1 ≤ effective_timeout rule gen)
    (hscan : scanClients pat (polls 0) = some a)
    (hfalsy : truthy a = false) :
    processRule gen dry polls rule
      = (launchEvents dry rule ++ [Event.queryClients]
          ++ [Event.warn (warnLine rule)], none)
    ∧ ((processRule gen dry polls rule).1).filter isRunCmdE = [] := by
  have hw : wait_for_window rule.class_regex polls (effective_timeout rule gen)
      gen.poll_interval_ms = ⟨.result a, [.queryClients]⟩ := by
    unfold wait_for_window
    rw [hc]
    unfold waitCompiled
    rcases hn : (effective_timeout rule gen * 1000).toNat with _ | n
    · omega
    · show waitAux pat polls _ _ (Nat.succ n + 1) 0 = _
      unfold waitAux
      have hcond : (0 : Int) < effective_timeout rule gen := by omega
      simp [hcond, hscan]
  have h1 : processRule gen dry polls rule
      = (launchEvents dry rule ++ [Event.queryClients]
          ++ [Event.warn (warnLine rule)], none) := by
    show (launchEvents dry rule
        ++ (wait_for_window rule.class_regex polls (effective_timeout rule gen)
              gen.poll_interval_ms).events
        ++ resolutionEvents dry rule
            (wait_for_window rule.class_regex polls (effective_timeout rule gen)
              gen.poll_interval_ms).outcome,
       ruleError (wait_for_window rule.class_regex polls (effective_timeout rule gen)
              gen.poll_interval_ms).outcome) = _
    rw [hw]
    simp [resolutionEvents, hfalsy, ruleError]
  refine ⟨h1, ?_⟩
  rw [h1]
  simp only [List.filter_append, filter_runCmd_launch]
  simp [isRunCmdE]

/-- C10 witness: a window whose class matches `xterm` but whose address
field is missing yields the timeout warning and no placement command. -/
theorem C10_witness :
    re_compile "xterm"
      = some (Regex.concat (Regex.char 'x') (Regex.concat (Regex.char 't')
          (Regex.concat (Regex.char 'e') (Regex.concat (Regex.char 'r') (Regex.char 'm')))))
    ∧ truthy none = false
    ∧ processRule ⟨[], 200, 20⟩ false (fun _ => [⟨none, some "xterm"⟩])
        ⟨"term", "xterm", "xterm", 2, none, none⟩
      = (launchEvents false ⟨"term", "xterm", "xterm", 2, none, none⟩
          ++ [Event.queryClients]
          ++ [Event.warn (warnLine ⟨"term", "xterm", "xterm", 2, none, none⟩)], none) :=
  ⟨rfl, rfl,
    (C10_falsy_address_timeout ⟨[], 200, 20⟩ false (fun _ => [⟨none, some "xterm"⟩])
      ⟨"term", "xterm", "xterm", 2, none, none⟩
      (Regex.concat (Regex.char 'x') (Regex.concat (Regex.char 't')
        (Regex.concat (Regex.char 'e') (Regex.concat (Regex.char 'r') (Regex.char 'm')))))
      none rfl (by decide) rfl rfl).1⟩
